import Mathlib

/-!
# A shallow embedding of the `dura` backup archive engine

This file embeds the storage engine of the `duralib` Python package —
blocks (`duralib/block.py`), bands (`duralib/band.py`), the archive
root (`duralib/archive.py`), the ingestion routine
(`duralib/backup.py`), the record I/O helpers (`duralib/ioutils.py`)
and the validator (`duralib/validate.py`) — and proves properties of
the embedded operations.

Modelling conventions:

* Python byte/character strings are modelled as `List Nat` of
  byte/character codes (`Bytes`).
* Machine integers are `Nat` (all quantities involved — lengths,
  offsets, counters, errno values — are non-negative in the source).
* Raised Python exceptions are modelled with `Except PyExn`; an
  operation that cannot raise is a plain function.  When an exception
  propagates, the mutated in-memory state is discarded (the source
  never catches these exceptions and resumes on the same object).
* The SHA-1 function comes from the Python `sha` standard-library
  module, which is outside this repository; every theorem is stated
  for an arbitrary digest function `sha1 : Bytes → Bytes`.  A running
  `sha.sha()` accumulator is modelled by the list of bytes fed to it
  so far; `digest()` applies `sha1` to that list.
* File handles opened with `open(..., 'wb')` are modelled by `PyFile`:
  the byte contents written so far plus a closed flag.  `tell`/`write`
  on a closed handle raise `ValueError`, as in Python.
-/

namespace Dura

/-- Byte strings / Python strings, as lists of byte (character) codes. -/
abbrev Bytes := List Nat

/-- errno for "No such file or directory". -/
def ENOENT : Nat := 2

/-- errno for "File exists". -/
def EEXIST : Nat := 17

/-- Python exceptions that the modelled code can raise.

`osError` covers `OSError`/`IOError` propagated raw (with its errno);
`valueError` models `ValueError` ("I/O operation on closed file");
`decodeError` models `google.protobuf.message.DecodeError`;
`assertionError` models a failed `assert`; `noSuchArchive` and
`badArchiveHeader` are the `DuraError` subclasses defined in
`duralib/archive.py` (each greedily formats its keyword arguments; we
keep the path argument). -/
inductive PyExn where
  | osError (errno : Nat)
  | valueError
  | decodeError
  | assertionError
  | attributeError
  | noSuchArchive (path : Bytes)
  | badArchiveHeader (headerPath : Bytes)
  deriving Repr, DecidableEq

/-- Whether an exception is one of the project's typed `DuraError`
subclasses (`duralib/errors.py` defines the base class; only
`NoSuchArchive` and `BadArchiveHeader` subclass it anywhere in the
source). -/
def PyExn.isDuraError : PyExn → Bool
  | .noSuchArchive _ => true
  | .badArchiveHeader _ => true
  | _ => false

/-- Does an `Except` hold a success value? -/
def exceptOk {α : Type} : Except PyExn α → Bool
  | .ok _ => true
  | .error _ => false

/-- A writable Python file handle: bytes written so far, plus whether
`close()` has been called. -/
structure PyFile where
  contents : Bytes
  closed : Bool
  deriving Repr, DecidableEq

/-- Model of `f.tell()`: current position (we only model sequential writes, so
the position is the length written).  Raises `ValueError` on a closed
file. -/
def PyFile.tell (f : PyFile) : Except PyExn Nat :=
  if f.closed then .error .valueError else .ok f.contents.length

/-- Model of `f.write(bs)`: append bytes.  Raises `ValueError` on a closed file. -/
def PyFile.write (f : PyFile) (bs : Bytes) : Except PyExn PyFile :=
  if f.closed then .error .valueError
  else .ok { f with contents := f.contents ++ bs }

/-! ## Record types (`duralib/proto/dura_pb2`)

The generated protobuf module is not part of the source tree; the
record shapes follow the specification's field lists.  Optional
protobuf fields are `Option`s; an unset optional scalar reads as its
default (`getD 0` / `getD []`) exactly as in protobuf. -/

/-- File-type enumeration value REGULAR = 1. -/
def REGULAR : Nat := 1

/-- File-type enumeration value DIRECTORY = 2. -/
def DIRECTORY : Nat := 2

/-- File-type enumeration value SYMLINK = 3. -/
def SYMLINK : Nat := 3

/-- One file captured in a block (protobuf `FileEntry`). -/
structure FileEntry where
  path : Bytes
  file_type : Nat
  data_length : Option Nat := none
  data_sha1 : Option Bytes := none
  data_offset : Option Nat := none
  deriving Repr, DecidableEq

/-- Manifest of one block (protobuf `BlockIndex`). -/
structure BlockIndex where
  file : List FileEntry := []
  data_sha1 : Option Bytes := none
  data_length : Option Nat := none
  deriving Repr, DecidableEq

/-! ## `duralib/block.py` — BlockWriter -/

/-- In-memory state of `duralib.block.BlockWriter`.

`blockIndex`, `dataFile` and `dataSha` are attributes only created by
`begin()`; before that they are `none` and touching them would be an
`AttributeError` (never exercised by the source's callers).
`dataSha` is the running `sha.sha()` accumulator, modelled as the
bytes fed to it so far. -/
structure BlockWriter where
  isOpen : Bool
  file_count : Nat
  data_file_position : Nat
  blockIndex : Option BlockIndex
  dataFile : Option PyFile
  dataSha : Option Bytes
  deriving Repr, DecidableEq

/-- Model of `BlockWriter.__init__`: `self.open = False`, counters zero; the
index, data file and digest attributes do not exist yet. -/
def BlockWriter.init : BlockWriter :=
  { isOpen := false
    file_count := 0
    data_file_position := 0
    blockIndex := none
    dataFile := none
    dataSha := none }

/-- Model of `BlockWriter.begin`: `assert self.open == False`; create the block
index, open the data file for writing (fresh empty file — `'wb'`
truncates), start a fresh running digest, set `self.open = True`. -/
def BlockWriter.begin (w : BlockWriter) : Except PyExn BlockWriter :=
  if w.isOpen then .error .assertionError
  else .ok { w with
    blockIndex := some {}
    dataFile := some { contents := [], closed := false }
    dataSha := some []
    isOpen := true }

/-- Fetch an attribute created by `begin()`; `AttributeError` if absent. -/
def attr {α : Type} : Option α → Except PyExn α
  | none => .error .attributeError
  | some a => .ok a

/-- Model of `BlockWriter.store_bulk_content(file_index, file_content)`:
set the entry's `data_length`; when non-zero also record the content
digest and the current data-file offset; then append the content to
the data file, feed it to the running digest, and remember the file
position.  Returns the updated entry and writer. -/
def BlockWriter.store_bulk_content (sha1 : Bytes → Bytes) (w : BlockWriter)
    (fi : FileEntry) (content : Bytes) :
    Except PyExn (FileEntry × BlockWriter) := do
  let df ← attr w.dataFile
  let sha ← attr w.dataSha
  let body_length := content.length
  let fi := { fi with data_length := some body_length }
  let fi ← if body_length ≠ 0 then do
      let off ← df.tell
      pure { fi with data_sha1 := some (sha1 content), data_offset := some off }
    else pure fi
  let df ← df.write content
  let sha := sha ++ content
  let pos ← df.tell
  pure (fi, { w with dataFile := some df, dataSha := some sha,
                     data_file_position := pos })

/-- Model of `BlockWriter.store_file(path, file_type, content)`: add an entry to
the block index with the file type and path, bump `file_count`, and if
`content is not None` store the bulk content.  There is no check of
`self.open` here. -/
def BlockWriter.store_file (sha1 : Bytes → Bytes) (w : BlockWriter)
    (path : Bytes) (fileType : Nat) (content : Option Bytes) :
    Except PyExn BlockWriter := do
  let bi ← attr w.blockIndex
  let fi : FileEntry := { path := path, file_type := fileType }
  let w := { w with file_count := w.file_count + 1 }
  match content with
  | none =>
      pure { w with blockIndex := some { bi with file := bi.file ++ [fi] } }
  | some c => do
      let (fi, w) ← BlockWriter.store_bulk_content sha1 w fi c
      pure { w with blockIndex := some { bi with file := bi.file ++ [fi] } }

/-- Model of `BlockWriter.finish`: record the block-level digest and total data
length in the index, close the data file, write the index record
(returned as the second component), set `self.open = False`.  There is
no check of `self.open` here either. -/
def BlockWriter.finish (sha1 : Bytes → Bytes) (w : BlockWriter) :
    Except PyExn (BlockWriter × BlockIndex) := do
  let bi ← attr w.blockIndex
  let sha ← attr w.dataSha
  let df ← attr w.dataFile
  let bi := { bi with data_sha1 := some (sha1 sha) }
  let len ← df.tell
  let bi := { bi with data_length := some len }
  let df := { df with closed := true }
  pure ({ w with blockIndex := some bi, dataFile := some df,
                 isOpen := false }, bi)

/-- One `store_file` request: logical path, file type, optional content. -/
structure StoreCmd where
  path : Bytes
  fileType : Nat
  content : Option Bytes
  deriving Repr, DecidableEq

/-- Run a sequence of `store_file` calls. -/
def BlockWriter.runStores (sha1 : Bytes → Bytes) (w : BlockWriter) :
    List StoreCmd → Except PyExn BlockWriter
  | [] => .ok w
  | c :: cs => do
      let w ← BlockWriter.store_file sha1 w c.path c.fileType c.content
      BlockWriter.runStores sha1 w cs

/-- Drive a fresh `BlockWriter` from `begin()` through a sequence of
`store_file` calls to `finish()`; result is the final writer and the
index record written to disk. -/
def runBlock (sha1 : Bytes → Bytes) (cmds : List StoreCmd) :
    Except PyExn (BlockWriter × BlockIndex) := do
  let w ← BlockWriter.init.begin
  let w ← BlockWriter.runStores sha1 w cmds
  BlockWriter.finish sha1 w

/-! ## Invariants of the block writer -/

/-- The placement/digest facts recorded for one entry hold relative to
data-file contents `data`: a positive recorded length comes with a
recorded offset, the region lies inside `data`, and the recorded
digest is the digest of the bytes of that region. -/
def entryOk (sha1 : Bytes → Bytes) (data : Bytes) (e : FileEntry) : Prop :=
  ∀ n, e.data_length = some n → 0 < n →
    ∃ off, e.data_offset = some off ∧ off + n ≤ data.length ∧
      e.data_sha1 = some (sha1 ((data.drop off).take n))

/-- The entries with positive recorded content length, in index order
(an unset `data_length` reads as the protobuf default 0). -/
def posEntries (es : List FileEntry) : List FileEntry :=
  es.filter fun e => decide (0 < e.data_length.getD 0)

/-- Sum of the recorded content lengths of a list of entries. -/
def sumLens (es : List FileEntry) : Nat :=
  es.foldr (fun e a => e.data_length.getD 0 + a) 0

/-- Offset contiguity of a list of entries starting at position `p`:
each entry's recorded offset is exactly where the previous entry's
region ended. -/
def Chain0 : Nat → List FileEntry → Prop
  | _, [] => True
  | p, e :: es => e.data_offset = some p ∧ Chain0 (p + e.data_length.getD 0) es

/-- Invariant maintained by an open `BlockWriter` between `begin()` and
`finish()`. -/
def BlockWriter.Inv (sha1 : Bytes → Bytes) (w : BlockWriter) : Prop :=
  ∃ bi df sha,
    w.blockIndex = some bi ∧ w.dataFile = some df ∧ w.dataSha = some sha ∧
    df.closed = false ∧ sha = df.contents ∧
    (∀ e ∈ bi.file, entryOk sha1 df.contents e) ∧
    Chain0 0 (posEntries bi.file) ∧
    sumLens (posEntries bi.file) = df.contents.length

/-- Concrete input for exercising the block-writer theorems: one
regular file with content `[5]`. -/
def exCmds : List StoreCmd := [{ path := [97], fileType := 1, content := some [5] }]

/-- The index written by `runBlock` on `exCmds` (digest function is the
identity). -/
def exIndex : BlockIndex :=
  { file := [{ path := [97], file_type := 1, data_length := some 1,
               data_sha1 := some [5], data_offset := some 0 }],
    data_sha1 := some [5], data_length := some 1 }

/-- The final writer state of `runBlock` on `exCmds`. -/
def exWriter : BlockWriter :=
  { isOpen := false, file_count := 1, data_file_position := 1,
    blockIndex := some exIndex,
    dataFile := some { contents := [5], closed := true },
    dataSha := some [5] }

/-- Concrete input for the contiguity witness: a directory entry, a
2-byte file, an empty file, a 1-byte file. -/
def exCmds7 : List StoreCmd :=
  [{ path := [100], fileType := 2, content := none },
   { path := [98], fileType := 1, content := some [7, 8] },
   { path := [99], fileType := 1, content := some [] },
   { path := [101], fileType := 1, content := some [9] }]

/-- The index written by `runBlock` on `exCmds7` (identity digest). -/
def exIndex7 : BlockIndex :=
  { file :=
      [{ path := [100], file_type := 2 },
       { path := [98], file_type := 1, data_length := some 2,
         data_sha1 := some [7, 8], data_offset := some 0 },
       { path := [99], file_type := 1, data_length := some 0 },
       { path := [101], file_type := 1, data_length := some 1,
         data_sha1 := some [9], data_offset := some 2 }],
    data_sha1 := some [7, 8, 9], data_length := some 3 }

/-- The final writer state of `runBlock` on `exCmds7`. -/
def exWriter7 : BlockWriter :=
  { isOpen := false, file_count := 4, data_file_position := 3,
    blockIndex := some exIndex7,
    dataFile := some { contents := [7, 8, 9], closed := true },
    dataSha := some [7, 8, 9] }

/-- The index record of an empty finished block (identity digest). -/
def exIndexC9 : BlockIndex :=
  { file := [], data_sha1 := some [], data_length := some 0 }

/-- A `BlockWriter` on which `finish()` has been called (state Closed),
exactly as produced by `runBlock` with no stores and identity digest. -/
def exWriterC9 : BlockWriter :=
  { isOpen := false, file_count := 0, data_file_position := 0,
    blockIndex := some exIndexC9,
    dataFile := some { contents := [], closed := true },
    dataSha := some [] }

/-! ## Decimal band numbers (`duralib/band.py`) -/

/-- Big-endian decimal digit codes of `n` — Python `str(n)` for a
non-negative integer. -/
def strOfNat (n : Nat) : Bytes :=
  if n = 0 then [48] else (Nat.digits 10 n).reverse.map (fun d => d + 48)

/-- Is `c` the code of an ASCII decimal digit? -/
def isDigitCode (c : Nat) : Bool := 48 ≤ c && c ≤ 57

/-- Python `int(s)` restricted to the plain-digit form the archive code
feeds it (band and block numbers are digit strings); any other string
raises `ValueError`, modelled as `none`. -/
def pyInt (s : Bytes) : Option Nat :=
  if s ≠ [] ∧ s.all isDigitCode then
    some (s.foldl (fun a c => a * 10 + (c - 48)) 0)
  else none

/-- Python `'%04d' % n` for a non-negative integer: the decimal form,
padded with leading zero characters to width 4. -/
def percent04d (n : Nat) : Bytes :=
  List.replicate (4 - (strOfNat n).length) 48 ++ strOfNat n

/-- Model of `duralib.band._canonicalize_band_number` (band.py lines 155–156):
`'%04d' % int(band_number)`. -/
def canonicalize_band_number (s : Bytes) : Option Bytes :=
  (pyInt s).map percent04d

/-- Split a string on `'-'` (code 45), as Python `s.split('-')`. -/
def splitOnDash : Bytes → List Bytes
  | [] => [[]]
  | c :: rest =>
      if c = 45 then [] :: splitOnDash rest
      else
        match splitOnDash rest with
        | [] => [[c]]
        | g :: gs => (c :: g) :: gs

/-- Python 2 `cmp` on integer lists (lexicographic element-wise). -/
def cmpNatList : List Nat → List Nat → Ordering
  | [], [] => .eq
  | [], _ :: _ => .lt
  | _ :: _, [] => .gt
  | a :: t1, b :: t2 =>
      if a < b then .lt else if b < a then .gt else cmpNatList t1 t2

/-- Model of `duralib.band.cmp_band_numbers` (band.py lines 159–170): split each
number on `-`, convert each field with `int()`, compare the integer
lists.  `none` models the `ValueError` Python raises on a non-numeric
field. -/
def cmp_band_numbers (n1 n2 : Bytes) : Option Ordering := do
  let l1 ← (splitOnDash n1).mapM pyInt
  let l2 ← (splitOnDash n2).mapM pyInt
  pure (cmpNatList l1 l2)

/-- The "a ≤ b" reading of `cmp_band_numbers`, used to model
`sort(cmp=cmp_band_numbers)`.  On the well-formed names produced by
the archive the comparison never fails; a failed comparison is treated
as ≤ so the modelled sort stays total. -/
def bandLe (a b : Bytes) : Bool := ((cmp_band_numbers a b).getD .eq) != .gt

/-- Insertion into a sorted list; building block of the modelled
comparison sort. -/
def insertSorted (x : Bytes) : List Bytes → List Bytes
  | [] => [x]
  | y :: ys => if bandLe x y then x :: y :: ys else y :: insertSorted x ys

/-- Model of `result.sort(cmp=cmp_band_numbers)` — a comparison sort; only its
behaviour on already-sorted inputs matters to the theorems below. -/
def sortBands (l : List Bytes) : List Bytes := l.foldr insertSorted []

/-! ## `duralib/archive.py` — Archive -/

/-- The archive header file name `DURA-ARCHIVE`. -/
def ARCHIVE_HEADER_NAME : Bytes :=
  [68, 85, 82, 65, 45, 65, 82, 67, 72, 73, 86, 69]

/-- The header magic string `dura backup archive`. -/
def HEADER_MAGIC : Bytes :=
  [100, 117, 114, 97, 32, 98, 97, 99, 107, 117, 112, 32,
   97, 114, 99, 104, 105, 118, 101]

/-- The archive header record (protobuf `ArchiveHeader`). -/
structure ArchiveHeader where
  magic : Bytes
  deriving Repr, DecidableEq

/-- Modelled from the spec: the protobuf codec for `ArchiveHeader`
(module `duralib.proto.dura_pb2`, generated code not present in the
source tree).  Field 1 (`magic`, string) is framed as the tag byte
0x0A, a one-byte length (the magic is far shorter than 128 bytes) and
the raw bytes; an empty message parses with the default empty magic;
anything else is a `DecodeError` (`none`). -/
def parseArchiveHeader : Bytes → Option ArchiveHeader
  | [] => some { magic := [] }
  | 10 :: len :: rest =>
      if rest.length = len then some { magic := rest } else none
  | _ => none

/-- Modelled from the spec: serialization inverse of
`parseArchiveHeader` (protobuf `SerializeToString`). -/
def serializeArchiveHeader (h : ArchiveHeader) : Bytes :=
  10 :: h.magic.length :: h.magic

/-- Model of `duralib.archive._make_archive_header_bytestring()` (lines
134–139). -/
def make_archive_header_bytestring : Bytes :=
  serializeArchiveHeader { magic := HEADER_MAGIC }

/-- Result of trying to read a whole file: absent (IOError ENOENT),
another IOError (with its errno), or the file's bytes. -/
inductive ReadResult where
  | absent
  | ioErr (errno : Nat)
  | bytes (bs : Bytes)
  deriving Repr, DecidableEq

/-- Model of `Archive._check_header` (archive.py lines 68–85): read the header
file — ENOENT becomes `NoSuchArchive`, any other IOError is re-raised
raw; parse the bytes — `DecodeError` becomes `BadArchiveHeader`;
finally require the magic to equal `"dura backup archive"`, else
`BadArchiveHeader`.  `headerPath` is the path carried by the raised
errors. -/
def check_header (headerPath : Bytes) (st : ReadResult) : Except PyExn Unit :=
  match st with
  | .absent => .error (.noSuchArchive headerPath)
  | .ioErr e => .error (.osError e)
  | .bytes bs =>
      match parseArchiveHeader bs with
      | none => .error (.badArchiveHeader headerPath)
      | some h =>
          if h.magic = HEADER_MAGIC then .ok ()
          else .error (.badArchiveHeader headerPath)

/-- On-disk state of an archive root: whether the path exists, the
bytes of `DURA-ARCHIVE` if present, and the names of the other direct
children in creation order.  (`os.listdir` returns an arbitrary order;
`list_bands` sorts, so the theorems do not depend on this choice.) -/
structure ArchiveDir where
  dirExists : Bool
  headerBytes : Option Bytes
  children : List Bytes
  deriving Repr, DecidableEq

/-- Reading `DURA-ARCHIVE` from an archive directory state. -/
def readHeaderFile (d : ArchiveDir) : ReadResult :=
  if d.dirExists then
    match d.headerBytes with
    | some bs => .bytes bs
    | none => .absent
  else .absent

/-- Model of `os.listdir` on the archive root. -/
def ArchiveDir.listdir (d : ArchiveDir) : List Bytes :=
  (match d.headerBytes with
   | some _ => [ARCHIVE_HEADER_NAME]
   | none => []) ++ d.children

/-- Model of `Archive.create(path)` (archive.py lines 38–47): `os.mkdir(path)` —
which raises the raw `OSError` with errno `EEXIST` when the target
exists (no typed wrapper is defined) — then `_write_header()`.  A
newly made directory is empty. -/
def Archive.create (d : ArchiveDir) : Except PyExn ArchiveDir :=
  if d.dirExists then .error (.osError EEXIST)
  else .ok { dirExists := true,
             headerBytes := some make_archive_header_bytestring,
             children := [] }

/-- Model of `Archive.open(path)` (archive.py lines 49–53): construct the object
and `_check_header()`. -/
def Archive.open_ (archivePath : Bytes) (d : ArchiveDir) : Except PyExn Unit :=
  check_header (archivePath ++ 47 :: ARCHIVE_HEADER_NAME) (readHeaderFile d)

/-- Model of `Band.match_band_name` (band.py lines 60–68): strip the `b` prefix
when present, else `None`. -/
def match_band_name : Bytes → Option Bytes
  | [] => none
  | c :: rest => if c = 98 then some rest else none

/-- Model of `Archive.list_bands` (archive.py lines 106–121): filter the
directory listing through `match_band_name`, sort the result with
`cmp_band_numbers`. -/
def Archive.list_bands (d : ArchiveDir) : List Bytes :=
  sortBands (d.listdir.filterMap match_band_name)

/-- Lift an `int()`-style failure into the `ValueError` Python raises. -/
def orValueError {α : Type} : Option α → Except PyExn α
  | none => .error .valueError
  | some a => .ok a

/-- Python `max` over a non-empty list of naturals (the caller guards
against emptiness); `foldl max 0` coincides with it there. -/
def listMax (l : List Nat) : Nat := l.foldl max 0

/-- Modelled from the spec: `Band.create_directory`, called by
`Archive.create_band` but absent from the source tree (§4.4: create
the band directory, failing if it already exists; the band-head write
inside the new directory is irrelevant to the archive listing). -/
def Band.create_directory (d : ArchiveDir) (dirName : Bytes) :
    Except PyExn ArchiveDir :=
  if dirName ∈ d.listdir then .error (.osError EEXIST)
  else .ok { d with children := d.children ++ [dirName] }

/-- Model of `Archive.create_band` (archive.py lines 91–104): allocate
`max(int(b) for b in list_bands()) + 1` (0 when no band exists), build
`Band(self, str(n))` — whose `__init__` canonicalizes the number with
`'%04d' % int(...)` — and create its directory `b<number>`.  Returns
the canonical band number and the new directory state. -/
def Archive.create_band (d : ArchiveDir) : Except PyExn (Bytes × ArchiveDir) := do
  let existing := Archive.list_bands d
  let next ←
    if existing = [] then pure 0
    else do
      let ints ← orValueError (existing.mapM pyInt)
      pure (listMax ints + 1)
  let bandNumber ← orValueError (canonicalize_band_number (strOfNat next))
  let d2 ← Band.create_directory d (98 :: bandNumber)
  pure (bandNumber, d2)

/-- The archive state right after `Archive.create` on a fresh path. -/
def freshArchive : ArchiveDir :=
  { dirExists := true, headerBytes := some make_archive_header_bytestring,
    children := [] }

/-- The archive state after `k` bands have been created: children
`b0000 … b<k-1>` in creation order. -/
def bandsState (k : Nat) : ArchiveDir :=
  { dirExists := true, headerBytes := some make_archive_header_bytestring,
    children := (List.range k).map fun i => 98 :: percent04d i }

/-- Runs `k` successive `create_band()` calls. -/
def runCreateBands : Nat → ArchiveDir → Except PyExn ArchiveDir
  | 0, d => .ok d
  | k + 1, d => do
      let (_, d2) ← Archive.create_band d
      runCreateBands k d2

/-! ## `duralib/band.py` — Band, BandReader, BandWriter -/

/-- The band tail marker file name `BAND-TAIL`. -/
def TAIL_NAME : Bytes := [66, 65, 78, 68, 45, 84, 65, 73, 76]

/-- In-memory state shared by `Band`, `BandReader` and `BandWriter`
(band.py lines 28–55): the `open` flag ("can only be true on
writers"), the canonical band number, and the band directory path. -/
structure Band where
  isOpen : Bool
  band_number : Bytes
  path : Bytes
  deriving Repr, DecidableEq

/-- Model of `Band.__init__` (band.py lines 41–46): set `self.open = False`,
canonicalize the band number (`ValueError` on a malformed one),
compute the band path `<archive>/b<number>`. -/
def Band.init (archivePath : Bytes) (bandNumber : Bytes) : Except PyExn Band :=
  match canonicalize_band_number bandNumber with
  | none => .error .valueError
  | some n => .ok { isOpen := false, band_number := n,
                    path := archivePath ++ 47 :: 98 :: n }

/-- Model of `BandWriter.is_finished` (band.py lines 151–152): `not self.open` —
a pure function of the in-memory flag; no file-system access at all. -/
def BandWriter.is_finished (b : Band) : Bool := !b.isOpen

/-- Model of `BandReader.is_finished` (band.py lines 117–118):
`os.path.isfile(<band>/BAND-TAIL)` — a test against the file system,
modelled as the list of file paths that exist. -/
def BandReader.is_finished (b : Band) (fsFiles : List Bytes) : Bool :=
  decide ((b.path ++ 47 :: TAIL_NAME) ∈ fsFiles)

/-! ## `duralib/ioutils.py` -/

/-- Model of `read_proto_from_file(cls, filename)` (ioutils.py lines 17–27):
construct the record, read the file — ANY `IOError` (not only ENOENT)
is logged as a warning and the function returns `None`; then
`ParseFromString` — a deserialization failure raises the protobuf
`DecodeError` (the project defines no typed `BadRecord`). -/
def read_proto_from_file {R : Type} (parse : Bytes → Option R)
    (st : ReadResult) : Except PyExn (Option R) :=
  match st with
  | .absent => .ok none
  | .ioErr _ => .ok none
  | .bytes bs =>
      match parse bs with
      | none => .error .decodeError
      | some r => .ok (some r)

/-! ## `duralib/backup.py` — store_files -/

/-- What `os.lstat` classification finds at a source path. -/
inductive SourceEntry where
  | regular (content : Bytes)
  | directory
  | symlink (target : Bytes)
  | special
  deriving Repr, DecidableEq

/-- Loop state of `store_files`: the `d000000.d` file contents, the
running digest accumulator, and the block-index entries so far. -/
structure SFState where
  data : Bytes
  shaAcc : Bytes
  file : List FileEntry
  deriving Repr, DecidableEq

/-- The entry-plus-content step of the `store_files` loop (backup.py
lines 57–67), identical in shape to `BlockWriter.store_bulk_content`:
set `data_length`; when positive also record the content digest and
the current data-file offset; append the content and feed the running
digest. -/
def storeContent (sha1 : Bytes → Bytes) (st : SFState) (p : Bytes)
    (t : Nat) (c : Bytes) : SFState :=
  let fi : FileEntry := { path := p, file_type := t, data_length := some c.length }
  let fi := if c.length ≠ 0 then
      { fi with data_sha1 := some (sha1 c), data_offset := some st.data.length }
    else fi
  { data := st.data ++ c, shaAcc := st.shaAcc ++ c, file := st.file ++ [fi] }

/-- One iteration of the `store_files` loop (backup.py lines 35–67):
regular files contribute their content, directories `None` (entry with
path and type only), symlinks their target text, anything else is
skipped with a warning and adds no entry. -/
def store_one (sha1 : Bytes → Bytes) (st : SFState)
    (f : Bytes × SourceEntry) : SFState :=
  match f.2 with
  | .special => st
  | .directory =>
      { st with file := st.file ++ [{ path := f.1, file_type := DIRECTORY }] }
  | .regular c => storeContent sha1 st f.1 REGULAR c
  | .symlink t => storeContent sha1 st f.1 SYMLINK t

/-- The single `(d000000.d, d000000.i)` pair `store_files` writes. -/
structure WrittenBlock where
  blockNumber : Bytes
  data : Bytes
  index : BlockIndex
  deriving Repr, DecidableEq

/-- Model of `store_files(file_names, to_band)` (backup.py lines 18–74): the
block number is the constant `'000000'` and every entry goes into this
one block (the `TODO` to split across multiple blocks is
unimplemented); at the end the block digest and total length are
recorded in the index and both files are closed.  No band head or tail
is touched. -/
def store_files (sha1 : Bytes → Bytes)
    (files : List (Bytes × SourceEntry)) : WrittenBlock :=
  let st := files.foldl (store_one sha1) { data := [], shaAcc := [], file := [] }
  { blockNumber := [48, 48, 48, 48, 48, 48]
    data := st.data
    index := { file := st.file, data_sha1 := some (sha1 st.shaAcc),
               data_length := some st.data.length } }

/-- The content bytes one source entry contributes to the data stream. -/
def contribution : Bytes × SourceEntry → Bytes
  | (_, .regular c) => c
  | (_, .directory) => []
  | (_, .symlink t) => t
  | (_, .special) => []

/-- The 45 one-byte regular files with 45 distinct paths (the claim's
scenario). -/
def files45 : List (Bytes × SourceEntry) :=
  (List.range 45).map fun i => (([i] : Bytes), SourceEntry.regular [i])

/-! ## `duralib/validate.py` -/

/-- On-disk state of one block for the validator: the bytes of
`<base>.d` and the parsed `BlockIndex` from `<base>.i` (the codec
round-trips, so the parsed record is the record that was written). -/
structure BlockFiles where
  data : Bytes
  index : BlockIndex
  deriving Repr, DecidableEq

/-- On-disk state of one band directory. -/
structure BandFs where
  name : Bytes
  blocks : List BlockFiles
  deriving Repr, DecidableEq

/-- On-disk state of a whole archive as the validator could see it. -/
structure ArchiveFs where
  header : ReadResult
  bands : List BandFs
  deriving Repr, DecidableEq

/-- Model of `validate_archive(archive_path)` (validate.py lines 30–34): log,
`Archive.open(archive_path)` — which reads only the header file — log
"validation … succeeded", return.  The second component is the list of
files the call reads: just `DURA-ARCHIVE`.  The bands and blocks in
`fs` are never consulted. -/
def validate_archive (archivePath : Bytes) (fs : ArchiveFs) :
    Except PyExn Unit × List Bytes :=
  (check_header (archivePath ++ 47 :: ARCHIVE_HEADER_NAME) fs.header,
   [archivePath ++ 47 :: ARCHIVE_HEADER_NAME])

/-- The two block-level checks `check_block` merely logs. -/
structure CheckBlockLog where
  lengthOk : Bool
  shaOk : Bool
  deriving Repr, DecidableEq

/-- The entry loop of `check_block` (validate.py lines 55–64): skip
entries with `data_length == 0`; otherwise `assert` the current read
position equals the recorded offset, read, `assert` the read length,
`assert` the digest.  The first failing `assert` raises
`AssertionError`, abandoning all later entries. -/
def checkEntries (sha1 : Bytes → Bytes) (data : Bytes) :
    Nat → List FileEntry → Except PyExn Unit
  | _, [] => .ok ()
  | pos, e :: es =>
      if e.data_length.getD 0 = 0 then checkEntries sha1 data pos es
      else if pos ≠ e.data_offset.getD 0 then .error .assertionError
      else
        let body := (data.drop pos).take (e.data_length.getD 0)
        if body.length ≠ e.data_length.getD 0 then .error .assertionError
        else if sha1 body ≠ e.data_sha1.getD [] then .error .assertionError
        else checkEntries sha1 data (pos + e.data_length.getD 0) es

/-- Model of `check_block(band_filename)` (validate.py lines 39–64): digest the
whole data file, then LOG — not record, not raise — whether the
block-level length and digest match (these log lines precede the entry
loop, so they are emitted even when the loop later raises); then run
the asserting entry loop from position 0. -/
def check_block (sha1 : Bytes → Bytes) (b : BlockFiles) :
    Except PyExn CheckBlockLog :=
  (checkEntries sha1 b.data 0 b.index.file).map fun _ =>
    { lengthOk := decide (b.data.length = b.index.data_length.getD 0)
      shaOk := decide (sha1 b.data = b.index.data_sha1.getD []) }

/-- A corrupt block: both the block-level digest and the single
entry's digest disagree with the stored data (identity digest). -/
def corruptBlock : BlockFiles :=
  { data := [7],
    index := { file := [{ path := [102], file_type := 1,
                          data_length := some 1, data_sha1 := some [9, 9],
                          data_offset := some 0 }],
               data_sha1 := some [8, 8], data_length := some 1 } }

/-- An archive whose header is valid but whose single band holds
`corruptBlock`. -/
def corruptArchiveFs : ArchiveFs :=
  { header := .bytes make_archive_header_bytestring,
    bands := [{ name := [98, 48, 48, 48, 48], blocks := [corruptBlock] }] }

/-! ## Lemmas about the block writer -/

lemma entryOk_append (sha1 : Bytes → Bytes) (data c : Bytes) (e : FileEntry)
    (h : entryOk sha1 data e) : entryOk sha1 (data ++ c) e := by
  intro n hn hpos
  obtain ⟨off, hoff, hle, hsha⟩ := h n hn hpos
  refine ⟨off, hoff, ?_, ?_⟩
  · simp only [List.length_append]
    omega
  · have hoffle : off ≤ data.length := by omega
    rw [List.drop_append_of_le_length hoffle,
        List.take_append_of_le_length (by simp [List.length_drop]; omega)]
    exact hsha

lemma sumLens_append (l l' : List FileEntry) :
    sumLens (l ++ l') = sumLens l + sumLens l' := by
  induction l with
  | nil => simp [sumLens]
  | cons e t ih => simp [sumLens, List.foldr_cons] at ih ⊢; omega

lemma posEntries_append_pos (l : List FileEntry) (e : FileEntry)
    (h : 0 < e.data_length.getD 0) :
    posEntries (l ++ [e]) = posEntries l ++ [e] := by
  simp [posEntries, List.filter_append, h]

lemma posEntries_append_zero (l : List FileEntry) (e : FileEntry)
    (h : e.data_length.getD 0 = 0) :
    posEntries (l ++ [e]) = posEntries l := by
  simp [posEntries, List.filter_append, h]

lemma chain_append (e : FileEntry) :
    ∀ (es : List FileEntry) (p : Nat), Chain0 p es →
      e.data_offset = some (p + sumLens es) → Chain0 p (es ++ [e])
  | [], p, _, hoff => by
      refine ⟨?_, trivial⟩
      simpa [sumLens] using hoff
  | f :: es, p, hch, hoff => by
      obtain ⟨h1, h2⟩ := hch
      refine ⟨h1, chain_append e es (p + f.data_length.getD 0) h2 ?_⟩
      rw [hoff]
      congr 1
      simp [sumLens]
      omega

lemma chain_le (q : Nat) : ∀ (es : List FileEntry), Chain0 q es →
    ∀ b ∈ es, q ≤ b.data_offset.getD 0
  | [], _, b, hb => absurd hb (List.not_mem_nil b)
  | f :: es, hch, b, hb => by
      obtain ⟨h1, h2⟩ := hch
      rcases List.mem_cons.mp hb with rfl | hb
      · simp [h1]
      · have := chain_le (q + f.data_length.getD 0) es h2 b hb
        omega

lemma chain_pairwise : ∀ (es : List FileEntry) (p : Nat), Chain0 p es →
    List.Pairwise
      (fun a b => a.data_offset.getD 0 + a.data_length.getD 0
                    ≤ b.data_offset.getD 0) es
  | [], _, _ => List.Pairwise.nil
  | e :: es, p, hch => by
      obtain ⟨h1, h2⟩ := hch
      refine List.Pairwise.cons ?_ (chain_pairwise es _ h2)
      intro b hb
      have := chain_le (p + e.data_length.getD 0) es h2 b hb
      simp [h1]
      omega

/-- Stepping with `store_file` preserves the open-writer invariant. -/
lemma store_file_inv (sha1 : Bytes → Bytes) (w : BlockWriter)
    (hinv : BlockWriter.Inv sha1 w) (p : Bytes) (t : Nat)
    (c : Option Bytes) (w' : BlockWriter)
    (h : BlockWriter.store_file sha1 w p t c = .ok w') :
    BlockWriter.Inv sha1 w' := by
  obtain ⟨bi, df, sha, hbi, hdf, hsha, hclosed, hshaeq, hok, hchain, hsum⟩ := hinv
  match c with
  | none =>
      simp only [BlockWriter.store_file, hbi, attr, bind, Except.bind,
        pure, Except.pure, Except.ok.injEq] at h
      subst h
      refine ⟨_, df, sha, rfl, hdf, hsha, hclosed, hshaeq, ?_, ?_, ?_⟩
      · intro e he
        rcases List.mem_append.mp he with he | he
        · exact hok e he
        · rcases List.mem_singleton.mp he with rfl
          intro n hn
          simp at hn
      · rw [posEntries_append_zero _ _ (by simp)]
        exact hchain
      · rw [posEntries_append_zero _ _ (by simp)]
        exact hsum
  | some cb =>
      by_cases hcb : cb.length = 0
      · rcases List.length_eq_zero.mp hcb with rfl
        simp only [BlockWriter.store_file, BlockWriter.store_bulk_content,
          hbi, hdf, hsha, attr, hcb, PyFile.write, PyFile.tell, hclosed,
          Bool.false_eq_true, if_false, List.append_nil, ne_eq,
          not_true_eq_false, bind, Except.bind, pure, Except.pure,
          Except.ok.injEq, reduceIte] at h
        subst h
        refine ⟨_, _, _, rfl, rfl, rfl, rfl, hshaeq, ?_, ?_, ?_⟩
        · intro e he
          rcases List.mem_append.mp he with he | he
          · exact hok e he
          · rcases List.mem_singleton.mp he with rfl
            intro n hn hpos
            simp only [Option.some.injEq] at hn
            omega
        · rw [posEntries_append_zero _ _ (by simp)]
          exact hchain
        · rw [posEntries_append_zero _ _ (by simp)]
          simpa using hsum
      · simp only [BlockWriter.store_file, BlockWriter.store_bulk_content,
          hbi, hdf, hsha, attr, PyFile.write, PyFile.tell, hclosed,
          Bool.false_eq_true, if_false, ne_eq, hcb, not_false_eq_true,
          if_true, bind, Except.bind, pure, Except.pure, Except.ok.injEq,
          reduceIte] at h
        subst h
        refine ⟨_, _, _, rfl, rfl, rfl, rfl, by rw [hshaeq], ?_, ?_, ?_⟩
        · intro e he
          rcases List.mem_append.mp he with he | he
          · exact entryOk_append sha1 df.contents cb e (hok e he)
          · rcases List.mem_singleton.mp he with rfl
            intro n hn hpos
            simp only [Option.some.injEq] at hn
            subst hn
            refine ⟨df.contents.length, rfl, by simp, ?_⟩
            rw [List.drop_left, List.take_length]
        · rw [posEntries_append_pos _ _ (by simpa using Nat.pos_of_ne_zero hcb)]
          exact chain_append _ _ _ hchain (by simp [hsum])
        · rw [posEntries_append_pos _ _ (by simpa using Nat.pos_of_ne_zero hcb),
             sumLens_append]
          simp only [sumLens] at hsum ⊢
          simp only [List.foldr_cons, List.foldr_nil, Option.getD_some,
            List.length_append]
          omega

/-- Running any list of `store_file` calls preserves the invariant. -/
lemma runStores_inv (sha1 : Bytes → Bytes) :
    ∀ (cmds : List StoreCmd) (w : BlockWriter),
      BlockWriter.Inv sha1 w → ∀ w',
      BlockWriter.runStores sha1 w cmds = .ok w' → BlockWriter.Inv sha1 w'
  | [], w, hinv, w', h => by
      simp only [BlockWriter.runStores, Except.ok.injEq] at h
      exact h ▸ hinv
  | c :: cs, w, hinv, w', h => by
      simp only [BlockWriter.runStores] at h
      match hw1 : BlockWriter.store_file sha1 w c.path c.fileType c.content with
      | .error e => rw [hw1] at h; simp [bind, Except.bind] at h
      | .ok w1 =>
          rw [hw1] at h
          simp only [bind, Except.bind, pure, Except.pure] at h
          exact runStores_inv sha1 cs w1
            (store_file_inv sha1 w hinv _ _ _ w1 hw1) w' h

/-- Calling `begin()` on a fresh writer succeeds and establishes the invariant. -/
lemma begin_inv (sha1 : Bytes → Bytes) :
    ∃ w0, BlockWriter.init.begin = .ok w0 ∧ BlockWriter.Inv sha1 w0 := by
  refine ⟨_, rfl, ?_⟩
  exact ⟨{}, { contents := [], closed := false }, [],
    rfl, rfl, rfl, rfl, rfl, by intro e he; simp [BlockIndex.file] at he,
    trivial, rfl⟩

/-- What `finish()` produces from a writer satisfying the invariant. -/
lemma finish_spec (sha1 : Bytes → Bytes) (w : BlockWriter)
    (hinv : BlockWriter.Inv sha1 w) (w' : BlockWriter) (idx : BlockIndex)
    (h : BlockWriter.finish sha1 w = .ok (w', idx)) :
    ∃ data,
      w'.dataFile = some { contents := data, closed := true } ∧
      idx.data_sha1 = some (sha1 data) ∧
      idx.data_length = some data.length ∧
      (∀ e ∈ idx.file, entryOk sha1 data e) ∧
      Chain0 0 (posEntries idx.file) ∧
      sumLens (posEntries idx.file) = data.length := by
  obtain ⟨bi, df, sha, hbi, hdf, hsha, hclosed, hshaeq, hok, hchain, hsum⟩ := hinv
  simp only [BlockWriter.finish, hbi, hdf, hsha, attr, PyFile.tell, hclosed,
    Bool.false_eq_true, if_false, bind, Except.bind, pure, Except.pure,
    Except.ok.injEq, Prod.mk.injEq, reduceIte] at h
  obtain ⟨hw', hidx⟩ := h
  subst hw'
  subst hidx
  refine ⟨df.contents, by cases df; rfl, ?_, ?_, ?_, ?_, ?_⟩
  · simp [hshaeq]
  · rfl
  · exact hok
  · exact hchain
  · exact hsum

/-- Combined invariant at the end of a full `begin → stores → finish` run. -/
lemma runBlock_spec (sha1 : Bytes → Bytes) (cmds : List StoreCmd)
    (w : BlockWriter) (idx : BlockIndex)
    (h : runBlock sha1 cmds = .ok (w, idx)) :
    ∃ data,
      w.dataFile = some { contents := data, closed := true } ∧
      idx.data_sha1 = some (sha1 data) ∧
      idx.data_length = some data.length ∧
      (∀ e ∈ idx.file, entryOk sha1 data e) ∧
      Chain0 0 (posEntries idx.file) ∧
      sumLens (posEntries idx.file) = data.length := by
  obtain ⟨w0, hw0, hinv0⟩ := begin_inv sha1
  simp only [runBlock, hw0, bind, Except.bind, pure, Except.pure] at h
  match hw1 : BlockWriter.runStores sha1 w0 cmds with
  | .error e => rw [hw1] at h; simp [bind, Except.bind] at h
  | .ok w1 =>
      rw [hw1] at h
      exact finish_spec sha1 w1 (runStores_inv sha1 cmds w0 hinv0 w1 hw1) w idx h

/-- C6: For every block produced by driving a `BlockWriter` from
`begin()` through any sequence of `store_file` calls to `finish()`,
the index's stored `data_sha1` equals the SHA-1 of the entire bytes of
the block's data file and the index's `data_length` equals the data
file's byte length; and for every file entry with `data_length > 0`,
the entry's `data_sha1` equals the SHA-1 of the data-file bytes at
`[data_offset, data_offset + data_length)`. -/
theorem C6_digest_law (sha1 : Bytes → Bytes) (cmds : List StoreCmd)
    (w : BlockWriter) (idx : BlockIndex)
    (h : runBlock sha1 cmds = .ok (w, idx)) :
    ∃ data, w.dataFile = some { contents := data, closed := true } ∧
      idx.data_sha1 = some (sha1 data) ∧
      idx.data_length = some data.length ∧
      ∀ e ∈ idx.file, ∀ n, e.data_length = some n → 0 < n →
        ∃ off, e.data_offset = some off ∧ off + n ≤ data.length ∧
          e.data_sha1 = some (sha1 ((data.drop off).take n)) := by
  obtain ⟨data, h1, h2, h3, h4, _, _⟩ := runBlock_spec sha1 cmds w idx h
  exact ⟨data, h1, h2, h3, h4⟩

/-- Witness for C6 at the concrete input `exCmds`. -/
theorem C6_digest_law_witness :
    runBlock (fun l => l) exCmds = .ok (exWriter, exIndex) ∧
    (∃ data, exWriter.dataFile = some { contents := data, closed := true } ∧
      exIndex.data_sha1 = some ((fun l => l) data) ∧
      exIndex.data_length = some data.length ∧
      ∀ e ∈ exIndex.file, ∀ n, e.data_length = some n → 0 < n →
        ∃ off, e.data_offset = some off ∧ off + n ≤ data.length ∧
          e.data_sha1 = some ((fun l => l) ((data.drop off).take n))) :=
  ⟨by rfl, C6_digest_law (fun l => l) exCmds exWriter exIndex (by rfl)⟩

/-- Stepping with `storeContent` (the entry-plus-content step of
`store_files`) preserves offset contiguity and the
sum-of-lengths/data-length equation, exactly as
`BlockWriter.store_bulk_content` does. -/
lemma storeContent_inv (sha1 : Bytes → Bytes) (st : SFState)
    (hchain : Chain0 0 (posEntries st.file))
    (hsum : sumLens (posEntries st.file) = st.data.length)
    (p : Bytes) (t : Nat) (c : Bytes) :
    Chain0 0 (posEntries (storeContent sha1 st p t c).file) ∧
    sumLens (posEntries (storeContent sha1 st p t c).file) =
      (storeContent sha1 st p t c).data.length := by
  by_cases hc : c.length = 0
  · have hfi : storeContent sha1 st p t c =
        { data := st.data ++ c, shaAcc := st.shaAcc ++ c,
          file := st.file ++
            [{ path := p, file_type := t, data_length := some c.length }] } := by
      simp [storeContent, hc]
    rw [hfi]
    constructor
    · rw [posEntries_append_zero _ _ (by simp [hc])]
      exact hchain
    · rw [posEntries_append_zero _ _ (by simp [hc])]
      simp only [List.length_append, hc, Nat.add_zero]
      exact hsum
  · have hfi : storeContent sha1 st p t c =
        { data := st.data ++ c, shaAcc := st.shaAcc ++ c,
          file := st.file ++
            [{ path := p, file_type := t, data_length := some c.length,
               data_sha1 := some (sha1 c),
               data_offset := some st.data.length }] } := by
      simp [storeContent, hc]
    rw [hfi]
    constructor
    · rw [posEntries_append_pos _ _ (by simpa using Nat.pos_of_ne_zero hc)]
      exact chain_append _ _ _ hchain (by simp [hsum])
    · rw [posEntries_append_pos _ _ (by simpa using Nat.pos_of_ne_zero hc),
         sumLens_append]
      simp only [sumLens] at hsum ⊢
      simp only [List.foldr_cons, List.foldr_nil, Option.getD_some,
        List.length_append]
      omega

/-- One `store_one` step of the `store_files` loop preserves offset
contiguity and the sum-of-lengths/data-length equation. -/
lemma store_one_inv (sha1 : Bytes → Bytes) (st : SFState)
    (hchain : Chain0 0 (posEntries st.file))
    (hsum : sumLens (posEntries st.file) = st.data.length)
    (f : Bytes × SourceEntry) :
    Chain0 0 (posEntries (store_one sha1 st f).file) ∧
    sumLens (posEntries (store_one sha1 st f).file) =
      (store_one sha1 st f).data.length := by
  match f with
  | (p, .special) => exact ⟨hchain, hsum⟩
  | (p, .directory) =>
      constructor
      · show Chain0 0 (posEntries
          (st.file ++ [{ path := p, file_type := DIRECTORY }]))
        rw [posEntries_append_zero _ _ (by simp)]
        exact hchain
      · show sumLens (posEntries
          (st.file ++ [{ path := p, file_type := DIRECTORY }])) =
            st.data.length
        rw [posEntries_append_zero _ _ (by simp)]
        exact hsum
  | (p, .regular c) => exact storeContent_inv sha1 st hchain hsum p REGULAR c
  | (p, .symlink t) => exact storeContent_inv sha1 st hchain hsum p SYMLINK t

/-- The whole `store_files` loop preserves offset contiguity and the
sum-of-lengths/data-length equation. -/
lemma store_fold_chain (sha1 : Bytes → Bytes) :
    ∀ (files : List (Bytes × SourceEntry)) (st : SFState),
      Chain0 0 (posEntries st.file) →
      sumLens (posEntries st.file) = st.data.length →
      Chain0 0 (posEntries (files.foldl (store_one sha1) st).file) ∧
      sumLens (posEntries (files.foldl (store_one sha1) st).file) =
        (files.foldl (store_one sha1) st).data.length
  | [], st, hchain, hsum => ⟨hchain, hsum⟩
  | f :: fs, st, hchain, hsum => by
      rw [List.foldl_cons]
      obtain ⟨h1, h2⟩ := store_one_inv sha1 st hchain hsum f
      exact store_fold_chain sha1 fs (store_one sha1 st f) h1 h2

/-- Offset contiguity of the index `store_files` writes. -/
lemma store_files_chain (sha1 : Bytes → Bytes)
    (files : List (Bytes × SourceEntry)) :
    Chain0 0 (posEntries (store_files sha1 files).index.file) ∧
    sumLens (posEntries (store_files sha1 files).index.file) =
      (store_files sha1 files).data.length :=
  store_fold_chain sha1 files { data := [], shaAcc := [], file := [] }
    trivial rfl

/-- C7: In every finalized block index — whether written by a
`BlockWriter` driven from `begin()` to `finish()` or by the ingestion
routine `store_files`, the only two places that build indexes — the
entries with `data_length > 0`, in order, have contiguous
`(offset, length)` regions: the first starts at 0 (the total content
written before it), each later one starts where the previous ended,
and consequently the regions are pairwise non-overlapping and in
ascending order. -/
theorem C7_offset_contiguity (sha1 : Bytes → Bytes) (cmds : List StoreCmd)
    (w : BlockWriter) (idx : BlockIndex)
    (h : runBlock sha1 cmds = .ok (w, idx)) :
    (Chain0 0 (posEntries idx.file) ∧
     List.Pairwise
       (fun a b => a.data_offset.getD 0 + a.data_length.getD 0
                     ≤ b.data_offset.getD 0)
       (posEntries idx.file)) ∧
    ∀ files : List (Bytes × SourceEntry),
      Chain0 0 (posEntries (store_files sha1 files).index.file) ∧
      List.Pairwise
        (fun a b => a.data_offset.getD 0 + a.data_length.getD 0
                      ≤ b.data_offset.getD 0)
        (posEntries (store_files sha1 files).index.file) := by
  constructor
  · obtain ⟨data, _, _, _, _, h5, _⟩ := runBlock_spec sha1 cmds w idx h
    exact ⟨h5, chain_pairwise _ 0 h5⟩
  · intro files
    obtain ⟨h1, _⟩ := store_files_chain sha1 files
    exact ⟨h1, chain_pairwise _ 0 h1⟩

/-- Witness for C7 at the concrete input `exCmds7` (the `store_files`
conjunct is universal and comes instantiated for every input). -/
theorem C7_offset_contiguity_witness :
    runBlock (fun l => l) exCmds7 = .ok (exWriter7, exIndex7) ∧
    ((Chain0 0 (posEntries exIndex7.file) ∧
      List.Pairwise
        (fun a b => a.data_offset.getD 0 + a.data_length.getD 0
                      ≤ b.data_offset.getD 0)
        (posEntries exIndex7.file)) ∧
     ∀ files : List (Bytes × SourceEntry),
       Chain0 0 (posEntries (store_files (fun l => l) files).index.file) ∧
       List.Pairwise
         (fun a b => a.data_offset.getD 0 + a.data_length.getD 0
                       ≤ b.data_offset.getD 0)
         (posEntries (store_files (fun l => l) files).index.file)) :=
  ⟨by rfl,
   C7_offset_contiguity (fun l => l) exCmds7 exWriter7 exIndex7 (by rfl)⟩

/-- C9 counterexample: on a `BlockWriter` in state Closed (produced by
`begin(); finish()`), a `store_file` call without content is NOT
rejected — it silently succeeds and appends an entry to the in-memory
index. -/
theorem C9_counterexample :
    runBlock (fun l => l) [] = .ok (exWriterC9, exIndexC9) ∧
    exWriterC9.isOpen = false ∧
    BlockWriter.store_file (fun l => l) exWriterC9 [112] 2 none =
      .ok { isOpen := false, file_count := 1, data_file_position := 0,
            blockIndex := some { file := [{ path := [112], file_type := 2 }],
                                 data_sha1 := some [], data_length := some 0 },
            dataFile := some { contents := [], closed := true },
            dataSha := some [] } :=
  ⟨by rfl, by rfl, by rfl⟩

/-- C9 amended: after `finish()`, a `store_file` call that carries
content and a second `finish()` fail with `ValueError` (an accident of
the closed file handle, not a state check), but a `store_file` call
without content silently succeeds and mutates the in-memory index. -/
theorem C9_closed_writer_ops (sha1 : Bytes → Bytes) (w : BlockWriter)
    (d : Bytes) (bi : BlockIndex) (s : Bytes)
    (hdf : w.dataFile = some { contents := d, closed := true })
    (hbi : w.blockIndex = some bi) (hsha : w.dataSha = some s) :
    (∀ p t c, BlockWriter.store_file sha1 w p t (some c) = .error .valueError) ∧
    BlockWriter.finish sha1 w = .error .valueError ∧
    (∀ p t, BlockWriter.store_file sha1 w p t none =
       .ok { w with
             file_count := w.file_count + 1
             blockIndex := some { bi with
               file := bi.file ++ [{ path := p, file_type := t }] } }) := by
  refine ⟨?_, ?_, ?_⟩
  · intro p t c
    by_cases hc : c.length = 0
    · rcases List.length_eq_zero.mp hc with rfl
      simp [BlockWriter.store_file, BlockWriter.store_bulk_content, hbi, hdf,
        hsha, attr, PyFile.write, PyFile.tell, bind, Except.bind, pure,
        Except.pure]
    · simp [BlockWriter.store_file, BlockWriter.store_bulk_content, hbi, hdf,
        hsha, attr, PyFile.tell, hc, bind, Except.bind, pure, Except.pure]
  · simp [BlockWriter.finish, hbi, hdf, hsha, attr, PyFile.tell, bind,
      Except.bind, pure, Except.pure]
  · intro p t
    simp [BlockWriter.store_file, hbi, attr, bind, Except.bind, pure,
      Except.pure]

/-- Witness for the amended C9 at the concrete closed writer
`exWriterC9`. -/
theorem C9_closed_writer_ops_witness :
    exWriterC9.dataFile = some { contents := [], closed := true } ∧
    ((∀ p t c, BlockWriter.store_file (fun l => l) exWriterC9 p t (some c) =
        .error .valueError) ∧
     BlockWriter.finish (fun l => l) exWriterC9 = .error .valueError ∧
     (∀ p t, BlockWriter.store_file (fun l => l) exWriterC9 p t none =
        .ok { exWriterC9 with
              file_count := exWriterC9.file_count + 1
              blockIndex := some { exIndexC9 with
                file := exIndexC9.file ++ [{ path := p, file_type := t }] } })) :=
  ⟨rfl, C9_closed_writer_ops (fun l => l) exWriterC9 [] exIndexC9 []
    rfl rfl rfl⟩

/-- C10: a freshly constructed `Band` (hence `BandWriter`, which adds
no state) has `open = False`, so `BandWriter.is_finished` returns
`True` even though no band directory or `BAND-TAIL` exists on disk —
it is computed solely from the in-memory flag, whereas
`BandReader.is_finished` tests the file system and returns `False` on
an empty one. -/
theorem C10_fresh_writer_is_finished (archivePath bandNumber : Bytes)
    (b : Band) (h : Band.init archivePath bandNumber = .ok b) :
    b.isOpen = false ∧
    BandWriter.is_finished b = true ∧
    BandReader.is_finished b [] = false := by
  match hc : canonicalize_band_number bandNumber with
  | none => rw [Band.init, hc] at h; cases h
  | some n =>
      rw [Band.init, hc] at h
      cases h
      refine ⟨rfl, rfl, ?_⟩
      simp [BandReader.is_finished]

/-- Witness for C10 at band number `"0"`. -/
theorem C10_fresh_writer_is_finished_witness :
    Band.init [47, 116] [48] =
      .ok { isOpen := false, band_number := [48, 48, 48, 48],
            path := [47, 116, 47, 98, 48, 48, 48, 48] } ∧
    ({ isOpen := false, band_number := [48, 48, 48, 48],
       path := [47, 116, 47, 98, 48, 48, 48, 48] } : Band).isOpen = false ∧
    BandWriter.is_finished
      { isOpen := false, band_number := [48, 48, 48, 48],
        path := [47, 116, 47, 98, 48, 48, 48, 48] } = true ∧
    BandReader.is_finished
      { isOpen := false, band_number := [48, 48, 48, 48],
        path := [47, 116, 47, 98, 48, 48, 48, 48] } [] = false :=
  ⟨by rfl,
   (C10_fresh_writer_is_finished [47, 116] [48] _ (by rfl)).1,
   (C10_fresh_writer_is_finished [47, 116] [48] _ (by rfl)).2.1,
   (C10_fresh_writer_is_finished [47, 116] [48] _ (by rfl)).2.2⟩

/-- C4: `_check_header` succeeds exactly when the header file exists
and deserializes to a record whose magic is `"dura backup archive"`;
an absent header raises `NoSuchArchive`; a header that fails
deserialization, or parses with a different magic, raises
`BadArchiveHeader`. -/
theorem C4_open_header_check (headerPath : Bytes) (st : ReadResult) :
    (check_header headerPath st = .ok () ↔
      ∃ bs hh, st = .bytes bs ∧ parseArchiveHeader bs = some hh ∧
        hh.magic = HEADER_MAGIC) ∧
    (st = .absent →
      check_header headerPath st = .error (.noSuchArchive headerPath)) ∧
    (∀ bs, st = .bytes bs → parseArchiveHeader bs = none →
      check_header headerPath st = .error (.badArchiveHeader headerPath)) ∧
    (∀ bs hh, st = .bytes bs → parseArchiveHeader bs = some hh →
      hh.magic ≠ HEADER_MAGIC →
      check_header headerPath st = .error (.badArchiveHeader headerPath)) := by
  refine ⟨⟨?_, ?_⟩, ?_, ?_, ?_⟩
  · intro hok
    match st with
    | .absent => exact absurd hok (by simp [check_header])
    | .ioErr e => exact absurd hok (by simp [check_header])
    | .bytes bs =>
        refine ⟨bs, ?_⟩
        match hp : parseArchiveHeader bs with
        | none => simp [check_header, hp] at hok
        | some hh =>
            by_cases hm : hh.magic = HEADER_MAGIC
            · exact ⟨hh, rfl, rfl, hm⟩
            · simp [check_header, hp, hm] at hok
  · rintro ⟨bs, hh, rfl, hp, hm⟩
    simp [check_header, hp, hm]
  · rintro rfl
    rfl
  · rintro bs rfl hp
    simp [check_header, hp]
  · rintro bs hh rfl hp hm
    simp [check_header, hp, hm]

/-- Witness for C4: a valid serialized header opens, an absent one is
`NoSuchArchive`, garbage is `BadArchiveHeader`. -/
theorem C4_open_header_check_witness :
    check_header [47] (.bytes make_archive_header_bytestring) = .ok () ∧
    check_header [47] .absent = .error (.noSuchArchive [47]) ∧
    check_header [47] (.bytes [115, 111, 109, 101]) =
      .error (.badArchiveHeader [47]) :=
  ⟨((C4_open_header_check [47] (.bytes make_archive_header_bytestring)).1).mpr
     ⟨make_archive_header_bytestring, { magic := HEADER_MAGIC }, rfl, rfl, rfl⟩,
   (C4_open_header_check [47] .absent).2.1 rfl,
   (C4_open_header_check [47] (.bytes [115, 111, 109, 101])).2.2.1
     [115, 111, 109, 101] rfl rfl⟩

/-- C5 counterexample: `Archive.create` on an existing target raises
the raw `OSError` with errno `EEXIST`; this is not a `DuraError` — the
source defines no `ArchiveExists` error at all, so the caller gets no
typed error to distinguish. -/
theorem C5_counterexample :
    Archive.create { dirExists := true, headerBytes := none, children := [] } =
      .error (.osError EEXIST) ∧
    (PyExn.osError EEXIST).isDuraError = false :=
  ⟨rfl, rfl⟩

/-- C5 amended: `Archive.create` creates the directory and writes the
header, and the created archive can then be opened; when the target
already exists the raw `OSError(EEXIST)` from `os.mkdir` propagates —
no typed `ArchiveExists` error exists. -/
theorem C5_create_behavior (archivePath : Bytes) (d : ArchiveDir) :
    (d.dirExists = true →
      Archive.create d = .error (.osError EEXIST) ∧
      (PyExn.osError EEXIST).isDuraError = false) ∧
    (d.dirExists = false →
      Archive.create d = .ok freshArchive ∧
      Archive.open_ archivePath freshArchive = .ok ()) := by
  constructor
  · intro h
    exact ⟨by simp [Archive.create, h], rfl⟩
  · intro h
    refine ⟨by simp [Archive.create, h, freshArchive], ?_⟩
    rfl

/-- Witness for the amended C5 at concrete directory states. -/
theorem C5_create_behavior_witness :
    (Archive.create { dirExists := true, headerBytes := none, children := [] } =
       .error (.osError EEXIST) ∧
     (PyExn.osError EEXIST).isDuraError = false) ∧
    (Archive.create { dirExists := false, headerBytes := none, children := [] } =
       .ok freshArchive ∧
     Archive.open_ [47, 97] freshArchive = .ok ()) :=
  ⟨(C5_create_behavior [47, 97]
      { dirExists := true, headerBytes := none, children := [] }).1 rfl,
   (C5_create_behavior [47, 97]
      { dirExists := false, headerBytes := none, children := [] }).2 rfl⟩

/-- C8 counterexample: on bytes that fail deserialization (here the
ASCII of `"some"`), `read_proto_from_file` raises the protobuf
library's `DecodeError`, which is not one of the project's typed
`DuraError`s — no `BadRecord` error exists in the source. -/
theorem C8_counterexample :
    read_proto_from_file parseArchiveHeader (.bytes [115, 111, 109, 101]) =
      .error .decodeError ∧
    PyExn.decodeError.isDuraError = false :=
  ⟨rfl, rfl⟩

/-- C8 amended: `read_proto_from_file` opens, reads to EOF,
deserializes and returns the record; on ANY `IOError` (ENOENT
included) it logs a warning and returns `None` instead of propagating;
on a deserialization failure the protobuf `DecodeError` propagates —
the project defines no typed `BadRecord`. -/
theorem C8_read_record_behavior {R : Type} (parse : Bytes → Option R)
    (st : ReadResult) :
    (st = .absent → read_proto_from_file parse st = .ok none) ∧
    (∀ e, st = .ioErr e → read_proto_from_file parse st = .ok none) ∧
    (∀ bs, st = .bytes bs → parse bs = none →
      read_proto_from_file parse st = .error .decodeError ∧
      PyExn.decodeError.isDuraError = false) ∧
    (∀ bs r, st = .bytes bs → parse bs = some r →
      read_proto_from_file parse st = .ok (some r)) := by
  refine ⟨?_, ?_, ?_, ?_⟩
  · rintro rfl
    rfl
  · rintro e rfl
    rfl
  · rintro bs rfl hp
    exact ⟨by simp [read_proto_from_file, hp], rfl⟩
  · rintro bs r rfl hp
    simp [read_proto_from_file, hp]

/-- Witness for the amended C8 with the `ArchiveHeader` codec. -/
theorem C8_read_record_behavior_witness :
    read_proto_from_file parseArchiveHeader .absent = .ok none ∧
    read_proto_from_file parseArchiveHeader (.ioErr 13) = .ok none ∧
    (read_proto_from_file parseArchiveHeader (.bytes [115, 111, 109, 101]) =
       .error .decodeError ∧
     PyExn.decodeError.isDuraError = false) ∧
    read_proto_from_file parseArchiveHeader
      (.bytes make_archive_header_bytestring) =
      .ok (some { magic := HEADER_MAGIC }) :=
  ⟨(C8_read_record_behavior parseArchiveHeader .absent).1 rfl,
   (C8_read_record_behavior parseArchiveHeader (.ioErr 13)).2.1 13 rfl,
   (C8_read_record_behavior parseArchiveHeader
      (.bytes [115, 111, 109, 101])).2.2.1 [115, 111, 109, 101] rfl rfl,
   (C8_read_record_behavior parseArchiveHeader
      (.bytes make_archive_header_bytestring)).2.2.2
     make_archive_header_bytestring { magic := HEADER_MAGIC } rfl rfl⟩

/-- C1 counterexample: on an archive whose single band contains a
block with wrong digests, `validate_archive` returns success having
read only `DURA-ARCHIVE` — no band head, tail, block index or data
file — and emits no finding; the separate `check_block` helper applied
to that block raises `AssertionError` instead of recording findings
and continuing (here its single entry's digest `[9, 9]` differs from
the digest of the data `[7]`). -/
theorem C1_counterexample :
    validate_archive [47, 97] corruptArchiveFs =
      (.ok (), [[47, 97] ++ 47 :: ARCHIVE_HEADER_NAME]) ∧
    corruptArchiveFs.bands =
      [{ name := [98, 48, 48, 48, 48], blocks := [corruptBlock] }] ∧
    check_block (fun l => l) corruptBlock = .error .assertionError ∧
    (fun l => l) corruptBlock.data ≠ corruptBlock.index.data_sha1.getD [] := by
  refine ⟨by rfl, rfl, by rfl, by decide⟩

/-- C1 amended: `validate_archive` only opens the archive — its result
is exactly the header check and the only file it reads is
`DURA-ARCHIVE`, whatever bands and blocks exist; block verification
lives only in the standalone `check_block`, whose entry loop raises
`AssertionError` at the first mismatch (here: a wrong offset), hiding
all later entries. -/
theorem C1_validator_scope (archivePath : Bytes) (fs : ArchiveFs) :
    (validate_archive archivePath fs).1 =
      check_header (archivePath ++ 47 :: ARCHIVE_HEADER_NAME) fs.header ∧
    (validate_archive archivePath fs).2 =
      [archivePath ++ 47 :: ARCHIVE_HEADER_NAME] ∧
    (∀ (sha1 : Bytes → Bytes) (data : Bytes) (pos : Nat) (e : FileEntry)
       (es : List FileEntry),
       e.data_length.getD 0 ≠ 0 → pos ≠ e.data_offset.getD 0 →
       checkEntries sha1 data pos (e :: es) = .error .assertionError) := by
  refine ⟨rfl, rfl, ?_⟩
  intro sha1 data pos e es h1 h2
  simp [checkEntries, h1, h2]

/-- Witness for the amended C1 at the corrupt archive. -/
theorem C1_validator_scope_witness :
    (validate_archive [47, 97] corruptArchiveFs).1 =
      check_header ([47, 97] ++ 47 :: ARCHIVE_HEADER_NAME)
        corruptArchiveFs.header ∧
    checkEntries (fun l => l) [7] 1
      [{ path := [102], file_type := 1, data_length := some 1,
         data_sha1 := some [9, 9], data_offset := some 0 }] =
      .error .assertionError :=
  ⟨(C1_validator_scope [47, 97] corruptArchiveFs).1,
   (C1_validator_scope [47, 97] corruptArchiveFs).2.2 (fun l => l) [7] 1
     { path := [102], file_type := 1, data_length := some 1,
       data_sha1 := some [9, 9], data_offset := some 0 } []
     (by decide) (by decide)⟩

/-- C2 counterexample: `store_files` on 45 one-byte regular files
produces a single block `000000` whose index has 45 entries — not
three blocks of 20, 20 and 5 — and whose data file is the 45 source
bytes concatenated in submission order. -/
theorem C2_counterexample :
    (store_files (fun l => l) files45).index.file.length = 45 ∧
    ¬((store_files (fun l => l) files45).index.file.length = 20) ∧
    (store_files (fun l => l) files45).blockNumber =
      [48, 48, 48, 48, 48, 48] ∧
    (store_files (fun l => l) files45).data = List.range 45 := by
  exact ⟨by decide, by decide, by rfl, by decide⟩

lemma store_fold (sha1 : Bytes → Bytes) :
    ∀ (files : List (Bytes × SourceEntry)) (st : SFState),
      (files.foldl (store_one sha1) st).data =
        st.data ++ (files.map contribution).flatten ∧
      (files.foldl (store_one sha1) st).shaAcc =
        st.shaAcc ++ (files.map contribution).flatten
  | [], st => by simp
  | (p, se) :: fs, st => by
      obtain ⟨h1, h2⟩ := store_fold sha1 fs (store_one sha1 st (p, se))
      rw [List.foldl_cons]
      cases se <;>
        simp [store_one, storeContent, contribution, h1, h2,
          List.append_assoc] at h1 h2 ⊢ <;>
        constructor <;> simp [h1, h2, List.append_assoc]

/-- C2 amended: `store_files` never rotates blocks — every entry goes
into the single block `000000` (`FILES_PER_BLOCK` does not exist in
the source, and no band tail is written); the block's data file is the
concatenation of the stored contents in submission order, and the
index records that data's length and digest. -/
theorem C2_single_block (sha1 : Bytes → Bytes)
    (files : List (Bytes × SourceEntry)) :
    (store_files sha1 files).blockNumber = [48, 48, 48, 48, 48, 48] ∧
    (store_files sha1 files).data = (files.map contribution).flatten ∧
    (store_files sha1 files).index.data_length =
      some (files.map contribution).flatten.length ∧
    (store_files sha1 files).index.data_sha1 =
      some (sha1 (files.map contribution).flatten) := by
  obtain ⟨h1, h2⟩ :=
    store_fold sha1 files { data := [], shaAcc := [], file := [] }
  refine ⟨rfl, ?_, ?_, ?_⟩ <;>
    simp [store_files, h1, h2]

/-! ## Decimal round-trip lemmas for band numbers -/

lemma foldl_digits (l : List Nat) (acc : Nat) :
    l.foldl (fun a d => a * 10 + d) acc =
      acc * 10 ^ l.length + Nat.ofDigits 10 l.reverse := by
  induction l generalizing acc with
  | nil => simp [Nat.ofDigits_nil]
  | cons d t ih =>
      simp only [List.foldl_cons, ih, List.reverse_cons, Nat.ofDigits_append,
        Nat.ofDigits_singleton, List.length_reverse, List.length_cons]
      ring

lemma strOfNat_all_digits (n : Nat) :
    ∀ c ∈ strOfNat n, isDigitCode c = true := by
  intro c hc
  rw [strOfNat] at hc
  by_cases h0 : n = 0
  · simp [h0] at hc
    simp [hc, isDigitCode]
  · simp only [h0, if_false, List.mem_map, List.mem_reverse] at hc
    obtain ⟨d, hd, rfl⟩ := hc
    have : d < 10 := Nat.digits_lt_base (by norm_num) hd
    simp only [isDigitCode, Bool.and_eq_true, decide_eq_true_eq]
    omega

lemma strOfNat_ne_nil (n : Nat) : strOfNat n ≠ [] := by
  rw [strOfNat]
  by_cases h0 : n = 0
  · simp [h0]
  · simp only [h0, if_false, ne_eq, List.map_eq_nil_iff, List.reverse_eq_nil_iff]
    exact Nat.digits_ne_nil_iff_ne_zero.mpr h0

lemma foldl_strOfNat (n : Nat) :
    (strOfNat n).foldl (fun a c => a * 10 + (c - 48)) 0 = n := by
  rw [strOfNat]
  by_cases h0 : n = 0
  · simp [h0]
  · simp only [h0, if_false, List.foldl_map]
    have heq : (fun (a d : Nat) => a * 10 + (d + 48 - 48)) =
        fun (a d : Nat) => a * 10 + d := by
      funext a d
      omega
    rw [heq, foldl_digits, List.reverse_reverse]
    simp [Nat.ofDigits_digits]

lemma foldl_zeros :
    ∀ k, (List.replicate k 48).foldl (fun a c => a * 10 + (c - 48)) 0 = 0
  | 0 => rfl
  | k + 1 => by
      rw [List.replicate_succ, List.foldl_cons]
      show (List.replicate k 48).foldl (fun a c => a * 10 + (c - 48)) 0 = 0
      exact foldl_zeros k

lemma pyInt_pad_strOfNat (k n : Nat) :
    pyInt (List.replicate k 48 ++ strOfNat n) = some n := by
  rw [pyInt, if_pos, List.foldl_append]
  · congr 1
    rw [foldl_zeros k, foldl_strOfNat]
  · constructor
    · intro hnil
      exact strOfNat_ne_nil n (List.append_eq_nil.mp hnil).2
    · rw [List.all_eq_true]
      intro c hc
      rcases List.mem_append.mp hc with hc | hc
      · rcases List.eq_of_mem_replicate hc with rfl
        decide
      · exact strOfNat_all_digits n c hc

lemma pyInt_strOfNat (n : Nat) : pyInt (strOfNat n) = some n := by
  have := pyInt_pad_strOfNat 0 n
  simpa using this

lemma pyInt_percent04d (n : Nat) : pyInt (percent04d n) = some n :=
  pyInt_pad_strOfNat _ n

lemma percent04d_inj {i j : Nat} (h : percent04d i = percent04d j) : i = j := by
  have := pyInt_percent04d i
  rw [h, pyInt_percent04d j] at this
  exact (Option.some.injEq _ _ ▸ this).symm

lemma percent04d_no_dash (n : Nat) : 45 ∉ percent04d n := by
  intro hmem
  rcases List.mem_append.mp hmem with h | h
  · rcases List.eq_of_mem_replicate h with h'
    omega
  · have := strOfNat_all_digits n 45 h
    simp [isDigitCode] at this

lemma splitOnDash_no_dash : ∀ s : Bytes, 45 ∉ s → splitOnDash s = [s]
  | [], _ => rfl
  | c :: rest, h => by
      have hc : ¬(c = 45) := fun hc => h (hc ▸ List.mem_cons_self c rest)
      have hrest : 45 ∉ rest := fun hr => h (List.mem_cons_of_mem c hr)
      rw [splitOnDash, if_neg hc, splitOnDash_no_dash rest hrest]

lemma mapM_loop_pyInt :
    ∀ (l : List Nat) (acc : List Nat),
      List.mapM.loop pyInt (l.map percent04d) acc = some (acc.reverse ++ l)
  | [], acc => by simp [List.mapM.loop]
  | a :: t, acc => by
      simp only [List.map_cons, List.mapM.loop, pyInt_percent04d]
      show List.mapM.loop pyInt (List.map percent04d t) (a :: acc) =
        some (acc.reverse ++ a :: t)
      rw [mapM_loop_pyInt t (a :: acc)]
      simp

lemma mapM_pyInt_percent04d (l : List Nat) :
    (l.map percent04d).mapM pyInt = some l := by
  have := mapM_loop_pyInt l []
  simpa [List.mapM] using this

lemma cmp_percent04d (i j : Nat) :
    cmp_band_numbers (percent04d i) (percent04d j) =
      some (cmpNatList [i] [j]) := by
  rw [cmp_band_numbers, splitOnDash_no_dash _ (percent04d_no_dash i),
      splitOnDash_no_dash _ (percent04d_no_dash j)]
  have h1 : (([percent04d i] : List Bytes)).mapM pyInt = some [i] :=
    mapM_pyInt_percent04d [i]
  have h2 : (([percent04d j] : List Bytes)).mapM pyInt = some [j] :=
    mapM_pyInt_percent04d [j]
  rw [h1, h2]
  rfl

lemma bandLe_percent04d (i j : Nat) (h : i ≤ j) :
    bandLe (percent04d i) (percent04d j) = true := by
  have hcmp : (cmpNatList [i] [j] != Ordering.gt) = true := by
    by_cases hij : i < j
    · have h1 : cmpNatList [i] [j] = .lt := by simp [cmpNatList, hij]
      rw [h1]
      rfl
    · have hji : ¬j < i := by omega
      have h1 : cmpNatList [i] [j] = .eq := by simp [cmpNatList, hij, hji]
      rw [h1]
      rfl
  rw [bandLe, cmp_percent04d]
  exact hcmp

/-! ## Sorting already-sorted band lists -/

lemma insertSorted_le (x : Bytes) :
    ∀ l : List Bytes, (∀ y ∈ l, bandLe x y = true) → insertSorted x l = x :: l
  | [], _ => rfl
  | y :: ys, h => by
      rw [insertSorted, if_pos (h y (List.mem_cons_self y ys))]

lemma sortBands_sorted :
    ∀ l : List Bytes, List.Pairwise (fun a b => bandLe a b = true) l →
      sortBands l = l
  | [], _ => rfl
  | a :: t, h => by
      rw [List.pairwise_cons] at h
      have ht := sortBands_sorted t h.2
      show insertSorted a (sortBands t) = a :: t
      rw [ht, insertSorted_le a t h.1]

/-! ## The archive after k create_band calls -/

lemma filterMap_band_names (l : List Nat) :
    (l.map fun i => 98 :: percent04d i).filterMap match_band_name =
      l.map percent04d := by
  induction l with
  | nil => rfl
  | cons a t ih => simp [match_band_name, ih]

lemma list_bands_bandsState (k : Nat) :
    Archive.list_bands (bandsState k) = (List.range k).map percent04d := by
  rw [Archive.list_bands]
  have hld : (bandsState k).listdir =
      ARCHIVE_HEADER_NAME :: (List.range k).map (fun i => 98 :: percent04d i) :=
    rfl
  rw [hld]
  have hhd : match_band_name ARCHIVE_HEADER_NAME = none := by decide
  rw [List.filterMap_cons, hhd, filterMap_band_names]
  apply sortBands_sorted
  rw [List.pairwise_map]
  exact (List.pairwise_lt_range k).imp fun hlt =>
    bandLe_percent04d _ _ (Nat.le_of_lt hlt)

lemma foldl_max_range : ∀ (k a : Nat), (List.range k).foldl max a = max a (k - 1)
  | 0, a => by simp
  | k + 1, a => by
      rw [List.range_succ, List.foldl_append, foldl_max_range k a]
      show max (max a (k - 1)) k = max a (k + 1 - 1)
      omega

lemma listMax_range (k : Nat) : listMax (List.range (k + 1)) = k := by
  rw [listMax, foldl_max_range]
  omega

lemma bandDir_not_mem (k : Nat) :
    (98 :: percent04d k) ∉ (bandsState k).listdir := by
  intro hmem
  have hld : (bandsState k).listdir =
      ARCHIVE_HEADER_NAME :: (List.range k).map (fun i => 98 :: percent04d i) :=
    rfl
  rw [hld] at hmem
  rcases List.mem_cons.mp hmem with h | h
  · simp [ARCHIVE_HEADER_NAME] at h
  · obtain ⟨i, hi, heq⟩ := List.mem_map.mp h
    have : i = k := percent04d_inj (List.cons.injEq _ _ _ _ ▸ heq).2
    subst this
    exact absurd (List.mem_range.mp hi) (Nat.lt_irrefl i)

lemma bandsState_snoc (k : Nat) :
    { bandsState k with
      children := (bandsState k).children ++ [98 :: percent04d k] } =
      bandsState (k + 1) := by
  have : (bandsState k).children ++ [98 :: percent04d k] =
      (bandsState (k + 1)).children := by
    show (List.range k).map (fun i => 98 :: percent04d i) ++ [98 :: percent04d k] =
      (List.range (k + 1)).map (fun i => 98 :: percent04d i)
    rw [List.range_succ, List.map_append]
    rfl
  rw [this]
  rfl

lemma create_band_bandsState (k : Nat) :
    Archive.create_band (bandsState k) =
      .ok (percent04d k, bandsState (k + 1)) := by
  match k with
  | 0 => rfl
  | s + 1 =>
      have hne : (List.range (s + 1)).map percent04d ≠ [] := by
        simp [List.range_succ]
      have hcan : canonicalize_band_number (strOfNat (s + 1)) =
          some (percent04d (s + 1)) := by
        rw [canonicalize_band_number, pyInt_strOfNat]
        rfl
      simp only [Archive.create_band, list_bands_bandsState, if_neg hne,
        mapM_pyInt_percent04d, orValueError, listMax_range, hcan,
        bind, Except.bind, pure, Except.pure,
        Band.create_directory, if_neg (bandDir_not_mem (s + 1)),
        bandsState_snoc]

lemma runCreateBands_bandsState :
    ∀ (j i : Nat), runCreateBands j (bandsState i) = .ok (bandsState (i + j))
  | 0, i => by simp [runCreateBands]
  | j + 1, i => by
      rw [runCreateBands, create_band_bandsState]
      show runCreateBands j (bandsState (i + 1)) = .ok (bandsState (i + (j + 1)))
      rw [runCreateBands_bandsState j (i + 1)]
      have harith : i + 1 + j = i + (j + 1) := by omega
      rw [harith]

/-- C3: for every `k ≥ 0`, `k` successive `create_band()` calls on a
fresh archive all return normally, leaving exactly the band
directories `b0000 … b<k-1>` on disk (in creation order), and
`list_bands()` then returns exactly `["0000", "0001", …, %04d(k-1)]`
in that order.  (`Band.create_directory` is modelled from the spec, as
it is absent from the source tree.) -/
theorem C3_band_numbering (k : Nat) :
    runCreateBands k freshArchive = .ok (bandsState k) ∧
    (bandsState k).children =
      (List.range k).map (fun i => 98 :: percent04d i) ∧
    Archive.list_bands (bandsState k) = (List.range k).map percent04d := by
  refine ⟨?_, rfl, list_bands_bandsState k⟩
  have h := runCreateBands_bandsState k 0
  rw [Nat.zero_add] at h
  exact h

end Dura
